import Mathlib

/-!
Verification of the request-authorization core of wg-portal
(`cmd/wg-portal/ui/handler.go`): authenticator-registry setup,
the authorization middleware, and the error reporter.

The Go code is embedded shallowly: external collaborators
(`url.Parse`, `path.Join`, the authenticator constructors, the backend
`GetActiveUser`) are passed in as function parameters, the gin request
context's session store is modelled as explicit state passing, and the
response written by an aborted request is an explicit value.
-/

namespace WgPortal

/-! ## Data model -/

/-- Error payload attached to a session by `HandleError`
(fields `Message`, `Details`, `Code`, `Path` of Go struct `ErrorData`). -/
structure ErrorData where
  Message : String
  Details : String
  Code : Nat
  Path : String
deriving DecidableEq, Repr

/-- Per-client session record. Its fields are the ones the handler code
reads and writes: `session.LoggedIn`, `session.UserIdentifier`,
`session.IsAdmin`, `session.DeepLink` in `authenticationMiddleware`, and
`currentSession.Error` in `HandleError`. -/
structure SessionData where
  LoggedIn : Bool
  UserIdentifier : String
  IsAdmin : Bool
  DeepLink : String
  Error : Option ErrorData
deriving DecidableEq, Repr

/-- The Go zero value of `SessionData`: all flags false, empty strings,
no pending error. -/
def emptySession : SessionData :=
  { LoggedIn := false, UserIdentifier := "", IsAdmin := false,
    DeepLink := "", Error := none }

instance : Inhabited SessionData := ⟨emptySession⟩

/-- State of the per-request session store: `none` when no session record
exists for the client, `some s` when record `s` is persisted. -/
abbrev SessionStoreState := Option SessionData

/-- Modelled from the spec: the Session Store contract (`GinSessionStore`
is not part of the visible source). `GetData` never fails and returns the
zero-value session when none exists. -/
def GetData (store : SessionStoreState) : SessionData :=
  store.getD emptySession

/-- Modelled from the spec: `SetData` persists the given session record,
last write wins. -/
def SetData (s : SessionData) (_store : SessionStoreState) : SessionStoreState :=
  some s

/-- Modelled from the spec: `DestroyData` invalidates/clears the session. -/
def DestroyData (_store : SessionStoreState) : SessionStoreState :=
  none

/-! ## Authenticator registry setup -/

/-- Go `strings.ToLower` as the handler uses it to normalize provider
identifiers: lower-case every character. -/
def strToLower (s : String) : String := ⟨s.data.map Char.toLower⟩

/-- OIDC provider configuration (the field the handler reads). -/
structure OidcProviderConfig where
  ProviderName : String
deriving DecidableEq, Repr

/-- Plain OAuth provider configuration (the field the handler reads). -/
structure OAuthProviderConfig where
  ProviderName : String
deriving DecidableEq, Repr

/-- LDAP provider configuration (the field the handler reads). -/
structure LdapProviderConfig where
  URL : String
deriving DecidableEq, Repr

/-- `config.Auth`: the three provider lists. -/
structure AuthConfig where
  OpenIDConnect : List OidcProviderConfig
  OAuth : List OAuthProviderConfig
  Ldap : List LdapProviderConfig
deriving DecidableEq, Repr

/-- The slice of `common.Config` the handler reads. -/
structure Config where
  ExternalUrl : String
  Auth : AuthConfig
deriving DecidableEq, Repr

/-- A parsed URL (`net/url.URL`) as the handler uses it: the mutable
`Path` component plus the remaining components, which the handler copies
unchanged. -/
structure Url where
  Path : String
  Rest : String
deriving DecidableEq, Repr

/-- `redirectUrl.String()` on our `Url` model. -/
def urlToString (u : Url) : String := u.Rest ++ u.Path

/-- Errors produced by `setupAuthProviders` (each constructor is one
`errors.Errorf` / `errors.WithMessagef` site in the Go code). -/
inductive SetupError where
  /-- "failed to parse external url" -/
  | parseExternalUrl (msg : String)
  /-- "auth provider with name %s is already registerd" -/
  | duplicateProvider (providerId : String)
  /-- "failed to setup oidc authentication provider %s" -/
  | oidcSetupFailed (providerName : String) (msg : String)
  /-- "failed to setup oauth authentication provider %s" -/
  | oauthSetupFailed (providerId : String) (msg : String)
  /-- "failed to setup ldap authentication provider %s" -/
  | ldapSetupFailed (providerId : String) (msg : String)
deriving DecidableEq, Repr

/-- External collaborators of `setupAuthProviders`: URL parsing and
joining from the standard library and the three authenticator
constructors (which in Go also receive a timeout context; construction
either returns an authenticator or an error). `α` is
`authentication.Authenticator`, `β` is `authentication.LdapAuthenticator`. -/
structure SetupEnv (α β : Type) where
  parseUrl : String → Except String Url
  pathJoin : List String → String
  newOidcAuthenticator : String → OidcProviderConfig → Except String α
  newPlainOauthAuthenticator : String → OAuthProviderConfig → Except String α
  newLdapAuthenticator : LdapProviderConfig → Except String β

/-- The registry maps a normalized provider identifier to the constructed
authenticator (Go: `map[string]authentication.Authenticator`), modelled
as an association list with unique keys. -/
abbrev Registry (α : Type) := List (String × α)

/-- The first loop of `setupAuthProviders`: register each OIDC provider
under its lower-cased name in the shared OIDC/OAuth registry `acc`,
failing on a duplicate identifier or on constructor failure. -/
def setupOidcProviders (env : SetupEnv α β) (extUrl : Url) :
    List OidcProviderConfig → Registry α → Except SetupError (Registry α)
  | [], acc => .ok acc
  | providerCfg :: rest, acc =>
    let providerId := strToLower providerCfg.ProviderName
    if (acc.lookup providerId).isSome then
      .error (.duplicateProvider providerId)
    else
      let redirectUrl : Url :=
        { extUrl with Path := env.pathJoin [extUrl.Path, "/auth/login/", providerId, "/callback"] }
      match env.newOidcAuthenticator (urlToString redirectUrl) providerCfg with
      | .error e => .error (.oidcSetupFailed providerCfg.ProviderName e)
      | .ok authenticator => setupOidcProviders env extUrl rest (acc ++ [(providerId, authenticator)])

/-- The second loop of `setupAuthProviders`: register each plain OAuth
provider in the same registry as the OIDC providers. -/
def setupOauthProviders (env : SetupEnv α β) (extUrl : Url) :
    List OAuthProviderConfig → Registry α → Except SetupError (Registry α)
  | [], acc => .ok acc
  | providerCfg :: rest, acc =>
    let providerId := strToLower providerCfg.ProviderName
    if (acc.lookup providerId).isSome then
      .error (.duplicateProvider providerId)
    else
      let redirectUrl : Url :=
        { extUrl with Path := env.pathJoin [extUrl.Path, "/auth/login/", providerId, "/callback"] }
      match env.newPlainOauthAuthenticator (urlToString redirectUrl) providerCfg with
      | .error e => .error (.oauthSetupFailed providerId e)
      | .ok authenticator => setupOauthProviders env extUrl rest (acc ++ [(providerId, authenticator)])

/-- The third loop of `setupAuthProviders`: register each LDAP provider
under its lower-cased connection URL, in a registry of its own. -/
def setupLdapProviders (env : SetupEnv α β) :
    List LdapProviderConfig → Registry β → Except SetupError (Registry β)
  | [], acc => .ok acc
  | providerCfg :: rest, acc =>
    let providerId := strToLower providerCfg.URL
    if (acc.lookup providerId).isSome then
      .error (.duplicateProvider providerId)
    else
      match env.newLdapAuthenticator providerCfg with
      | .error e => .error (.ldapSetupFailed providerId e)
      | .ok authenticator => setupLdapProviders env rest (acc ++ [(providerId, authenticator)])

/-- `(h *handler).setupAuthProviders`: parse the external URL, then run
the three provider loops in order, short-circuiting on the first error.
On success it yields the populated OIDC/OAuth registry and LDAP registry. -/
def setupAuthProviders (env : SetupEnv α β) (config : Config) :
    Except SetupError (Registry α × Registry β) :=
  match env.parseUrl config.ExternalUrl with
  | .error e => .error (.parseExternalUrl e)
  | .ok extUrl =>
    match setupOidcProviders env extUrl config.Auth.OpenIDConnect [] with
    | .error e => .error e
    | .ok oauthAuthenticators =>
      match setupOauthProviders env extUrl config.Auth.OAuth oauthAuthenticators with
      | .error e => .error e
      | .ok oauthAuthenticators =>
        match setupLdapProviders env config.Auth.Ldap [] with
        | .error e => .error e
        | .ok ldapAuthenticators => .ok (oauthAuthenticators, ldapAuthenticators)

/-- The handler state that setup populates (Go struct `handler`, restricted
to the two authenticator registries; config, session store and backend are
threaded separately in this embedding). -/
structure Handler (α β : Type) where
  oauthAuthenticators : Registry α
  ldapAuthenticators : Registry β

/-- `NewHandler`: build a handler whose registries come from
`setupAuthProviders`; any setup error is returned and no handler value is
produced. -/
def NewHandler (env : SetupEnv α β) (config : Config) :
    Except SetupError (Handler α β) :=
  match setupAuthProviders env config with
  | .error e => .error e
  | .ok registries =>
    .ok { oauthAuthenticators := registries.1, ldapAuthenticators := registries.2 }

/-! ## Authorization middleware -/

/-- The backend Validity Oracle `core.Backend.GetActiveUser`: either an
active user (`υ` is the user record type) or an error. -/
abbrev BackendOracle (υ : Type) := String → Except String υ

/-- `(h *handler).isUserStillValid`: true iff `GetActiveUser` returns no
error. -/
def isUserStillValid (getActiveUser : BackendOracle υ) (id : String) : Bool :=
  match getActiveUser id with
  | .error _ => false
  | .ok _ => true

/-- A response written by an aborted request: either
`c.Redirect(status, location)` or `c.String(status, body)`. -/
inductive Response where
  | redirect (status : Nat) (location : String)
  | body (status : Nat) (text : String)
deriving DecidableEq, Repr

/-- Observable outcome of one middleware invocation: the session-store
state after the call, the response written when the chain was aborted
(`none` when the middleware wrote nothing), and how many times `c.Next()`
ran the downstream protected handler. -/
structure MiddlewareResult where
  store : SessionStoreState
  response : Option Response
  handlerCalls : Nat
deriving DecidableEq, Repr

/-- `(h *handler).authenticationMiddleware(scope)` applied to one request:
reads the session, then takes the first matching branch of the Go code —
not logged in / admin-scope without admin flag / other non-empty scope
without admin flag / failed revalidation / pass. -/
def authenticationMiddleware (getActiveUser : BackendOracle υ) (scope : String)
    (requestURI : String) (store : SessionStoreState) : MiddlewareResult :=
  let session := GetData store
  if !session.LoggedIn then
    let session := { session with DeepLink := requestURI }
    { store := SetData session store,
      response := some (.redirect 303 "/auth/login"), handlerCalls := 0 }
  else if scope == "admin" && !session.IsAdmin then
    { store := store,
      response := some (.body 401 "unauthorized: not enough permissions"), handlerCalls := 0 }
  else if scope != "" && !session.IsAdmin then
    { store := store,
      response := some (.body 401 "unauthorized: not enough permissions"), handlerCalls := 0 }
  else if !isUserStillValid getActiveUser session.UserIdentifier then
    { store := DestroyData store,
      response := some (.body 401 "unauthorized: session no longer available"), handlerCalls := 0 }
  else
    { store := store, response := none, handlerCalls := 1 }

/-! ## Error reporter -/

/-- `(h *handler).HandleError`: build an error payload from the status
code, error message, detail string and originating request path, attach
it to the current session (pointing the path at the site root when the
status is 404), persist the session, and redirect to `/oops`. -/
def HandleError (store : SessionStoreState) (code : Nat) (errMsg : String)
    (details : String) (requestPath : String) : SessionStoreState × Response :=
  let currentSession := GetData store
  let errData : ErrorData :=
    { Message := errMsg, Details := details, Code := code, Path := requestPath }
  let errData := if code == 404 then { errData with Path := "/" } else errData
  let currentSession := { currentSession with Error := some errData }
  (SetData currentSession store, .redirect 303 "/oops")

/-! ## Provider identifier lists -/

/-- The normalized identifiers the OIDC loop registers, in order. -/
def oidcIds (l : List OidcProviderConfig) : List String :=
  l.map fun c => strToLower c.ProviderName

/-- The normalized identifiers the OAuth loop registers, in order. -/
def oauthIds (l : List OAuthProviderConfig) : List String :=
  l.map fun c => strToLower c.ProviderName

/-- The normalized identifiers the LDAP loop registers, in order. -/
def ldapIds (l : List LdapProviderConfig) : List String :=
  l.map fun c => strToLower c.URL

/-- All identifiers of the shared OIDC/OAuth namespace of a configuration. -/
def oauthNamespaceIds (config : Config) : List String :=
  oidcIds config.Auth.OpenIDConnect ++ oauthIds config.Auth.OAuth

/-! ## Registry-setup lemmas -/

theorem lookup_isSome_iff (l : List (String × α)) (k : String) :
    (l.lookup k).isSome = true ↔ k ∈ l.map Prod.fst := by
  induction l with
  | nil => simp [List.lookup]
  | cons p rest ih =>
    by_cases h : k = p.1
    · simp [List.lookup, h]
    · have hb : (k == p.1) = false := by simp [h]
      simp [List.lookup, hb, h, ih]

theorem setupOidcProviders_nodup_ok (env : SetupEnv α β) (extUrl : Url)
    (hnew : ∀ r c, ∃ a, env.newOidcAuthenticator r c = .ok a)
    (L : List OidcProviderConfig) (acc : Registry α)
    (h : (acc.map Prod.fst ++ oidcIds L).Nodup) :
    ∃ m, setupOidcProviders env extUrl L acc = .ok m ∧
      m.map Prod.fst = acc.map Prod.fst ++ oidcIds L := by
  induction L generalizing acc with
  | nil => exact ⟨acc, rfl, by simp [oidcIds]⟩
  | cons c rest ih =>
    have hmem : strToLower c.ProviderName ∉ acc.map Prod.fst := by
      intro hin
      rcases List.nodup_append.mp h with ⟨h1, h2, hdisj⟩
      exact hdisj hin (by simp [oidcIds])
    have hlk : (acc.lookup (strToLower c.ProviderName)).isSome = false := by
      rw [Bool.eq_false_iff]
      intro hs
      exact hmem ((lookup_isSome_iff acc _).mp hs)
    obtain ⟨a, ha⟩ := hnew
      (urlToString { extUrl with
        Path := env.pathJoin [extUrl.Path, "/auth/login/", strToLower c.ProviderName, "/callback"] }) c
    have hrearrange : (acc.map Prod.fst ++ oidcIds (c :: rest)) =
        ((acc ++ [(strToLower c.ProviderName, a)]).map Prod.fst ++ oidcIds rest) := by
      simp [oidcIds]
    obtain ⟨m, hm, hkeys⟩ := ih (acc ++ [(strToLower c.ProviderName, a)]) (hrearrange ▸ h)
    refine ⟨m, ?_, ?_⟩
    · simp only [setupOidcProviders, hlk, Bool.false_eq_true, if_false, ha]
      exact hm
    · rw [hkeys, ← hrearrange]

theorem setupOidcProviders_dup_error (env : SetupEnv α β) (extUrl : Url)
    (hnew : ∀ r c, ∃ a, env.newOidcAuthenticator r c = .ok a)
    (L : List OidcProviderConfig) (acc : Registry α)
    (hacc : (acc.map Prod.fst).Nodup)
    (h : ¬ (acc.map Prod.fst ++ oidcIds L).Nodup) :
    ∃ id, setupOidcProviders env extUrl L acc = .error (.duplicateProvider id) := by
  induction L generalizing acc with
  | nil => exact absurd (by simpa [oidcIds] using hacc) h
  | cons c rest ih =>
    by_cases hmem : strToLower c.ProviderName ∈ acc.map Prod.fst
    · have hlk : (acc.lookup (strToLower c.ProviderName)).isSome = true :=
        (lookup_isSome_iff acc _).mpr hmem
      exact ⟨strToLower c.ProviderName, by simp [setupOidcProviders, hlk]⟩
    · have hlk : (acc.lookup (strToLower c.ProviderName)).isSome = false := by
        rw [Bool.eq_false_iff]
        intro hs
        exact hmem ((lookup_isSome_iff acc _).mp hs)
      obtain ⟨a, ha⟩ := hnew
        (urlToString { extUrl with
          Path := env.pathJoin [extUrl.Path, "/auth/login/", strToLower c.ProviderName, "/callback"] }) c
      have hrearrange : (acc.map Prod.fst ++ oidcIds (c :: rest)) =
          ((acc ++ [(strToLower c.ProviderName, a)]).map Prod.fst ++ oidcIds rest) := by
        simp [oidcIds]
      have hacc2 : ((acc ++ [(strToLower c.ProviderName, a)]).map Prod.fst).Nodup := by
        simp only [List.map_append, List.map_cons, List.map_nil]
        exact List.Nodup.append hacc (by simp) (by simpa using hmem)
      obtain ⟨id, hid⟩ := ih (acc ++ [(strToLower c.ProviderName, a)]) hacc2 (hrearrange ▸ h)
      refine ⟨id, ?_⟩
      simp only [setupOidcProviders, hlk, Bool.false_eq_true, if_false, ha]
      exact hid

theorem setupOauthProviders_nodup_ok (env : SetupEnv α β) (extUrl : Url)
    (hnew : ∀ r c, ∃ a, env.newPlainOauthAuthenticator r c = .ok a)
    (L : List OAuthProviderConfig) (acc : Registry α)
    (h : (acc.map Prod.fst ++ oauthIds L).Nodup) :
    ∃ m, setupOauthProviders env extUrl L acc = .ok m ∧
      m.map Prod.fst = acc.map Prod.fst ++ oauthIds L := by
  induction L generalizing acc with
  | nil => exact ⟨acc, rfl, by simp [oauthIds]⟩
  | cons c rest ih =>
    have hmem : strToLower c.ProviderName ∉ acc.map Prod.fst := by
      intro hin
      rcases List.nodup_append.mp h with ⟨h1, h2, hdisj⟩
      exact hdisj hin (by simp [oauthIds])
    have hlk : (acc.lookup (strToLower c.ProviderName)).isSome = false := by
      rw [Bool.eq_false_iff]
      intro hs
      exact hmem ((lookup_isSome_iff acc _).mp hs)
    obtain ⟨a, ha⟩ := hnew
      (urlToString { extUrl with
        Path := env.pathJoin [extUrl.Path, "/auth/login/", strToLower c.ProviderName, "/callback"] }) c
    have hrearrange : (acc.map Prod.fst ++ oauthIds (c :: rest)) =
        ((acc ++ [(strToLower c.ProviderName, a)]).map Prod.fst ++ oauthIds rest) := by
      simp [oauthIds]
    obtain ⟨m, hm, hkeys⟩ := ih (acc ++ [(strToLower c.ProviderName, a)]) (hrearrange ▸ h)
    refine ⟨m, ?_, ?_⟩
    · simp only [setupOauthProviders, hlk, Bool.false_eq_true, if_false, ha]
      exact hm
    · rw [hkeys, ← hrearrange]

theorem setupOauthProviders_dup_error (env : SetupEnv α β) (extUrl : Url)
    (hnew : ∀ r c, ∃ a, env.newPlainOauthAuthenticator r c = .ok a)
    (L : List OAuthProviderConfig) (acc : Registry α)
    (hacc : (acc.map Prod.fst).Nodup)
    (h : ¬ (acc.map Prod.fst ++ oauthIds L).Nodup) :
    ∃ id, setupOauthProviders env extUrl L acc = .error (.duplicateProvider id) := by
  induction L generalizing acc with
  | nil => exact absurd (by simpa [oauthIds] using hacc) h
  | cons c rest ih =>
    by_cases hmem : strToLower c.ProviderName ∈ acc.map Prod.fst
    · have hlk : (acc.lookup (strToLower c.ProviderName)).isSome = true :=
        (lookup_isSome_iff acc _).mpr hmem
      exact ⟨strToLower c.ProviderName, by simp [setupOauthProviders, hlk]⟩
    · have hlk : (acc.lookup (strToLower c.ProviderName)).isSome = false := by
        rw [Bool.eq_false_iff]
        intro hs
        exact hmem ((lookup_isSome_iff acc _).mp hs)
      obtain ⟨a, ha⟩ := hnew
        (urlToString { extUrl with
          Path := env.pathJoin [extUrl.Path, "/auth/login/", strToLower c.ProviderName, "/callback"] }) c
      have hrearrange : (acc.map Prod.fst ++ oauthIds (c :: rest)) =
          ((acc ++ [(strToLower c.ProviderName, a)]).map Prod.fst ++ oauthIds rest) := by
        simp [oauthIds]
      have hacc2 : ((acc ++ [(strToLower c.ProviderName, a)]).map Prod.fst).Nodup := by
        simp only [List.map_append, List.map_cons, List.map_nil]
        exact List.Nodup.append hacc (by simp) (by simpa using hmem)
      obtain ⟨id, hid⟩ := ih (acc ++ [(strToLower c.ProviderName, a)]) hacc2 (hrearrange ▸ h)
      refine ⟨id, ?_⟩
      simp only [setupOauthProviders, hlk, Bool.false_eq_true, if_false, ha]
      exact hid

theorem setupLdapProviders_nodup_ok (env : SetupEnv α β)
    (hnew : ∀ c, ∃ a, env.newLdapAuthenticator c = .ok a)
    (L : List LdapProviderConfig) (acc : Registry β)
    (h : (acc.map Prod.fst ++ ldapIds L).Nodup) :
    ∃ m, setupLdapProviders env L acc = .ok m ∧
      m.map Prod.fst = acc.map Prod.fst ++ ldapIds L := by
  induction L generalizing acc with
  | nil => exact ⟨acc, rfl, by simp [ldapIds]⟩
  | cons c rest ih =>
    have hmem : strToLower c.URL ∉ acc.map Prod.fst := by
      intro hin
      rcases List.nodup_append.mp h with ⟨h1, h2, hdisj⟩
      exact hdisj hin (by simp [ldapIds])
    have hlk : (acc.lookup (strToLower c.URL)).isSome = false := by
      rw [Bool.eq_false_iff]
      intro hs
      exact hmem ((lookup_isSome_iff acc _).mp hs)
    obtain ⟨a, ha⟩ := hnew c
    have hrearrange : (acc.map Prod.fst ++ ldapIds (c :: rest)) =
        ((acc ++ [(strToLower c.URL, a)]).map Prod.fst ++ ldapIds rest) := by
      simp [ldapIds]
    obtain ⟨m, hm, hkeys⟩ := ih (acc ++ [(strToLower c.URL, a)]) (hrearrange ▸ h)
    refine ⟨m, ?_, ?_⟩
    · simp only [setupLdapProviders, hlk, Bool.false_eq_true, if_false, ha]
      exact hm
    · rw [hkeys, ← hrearrange]

theorem setupLdapProviders_dup_error (env : SetupEnv α β)
    (hnew : ∀ c, ∃ a, env.newLdapAuthenticator c = .ok a)
    (L : List LdapProviderConfig) (acc : Registry β)
    (hacc : (acc.map Prod.fst).Nodup)
    (h : ¬ (acc.map Prod.fst ++ ldapIds L).Nodup) :
    ∃ id, setupLdapProviders env L acc = .error (.duplicateProvider id) := by
  induction L generalizing acc with
  | nil => exact absurd (by simpa [ldapIds] using hacc) h
  | cons c rest ih =>
    by_cases hmem : strToLower c.URL ∈ acc.map Prod.fst
    · have hlk : (acc.lookup (strToLower c.URL)).isSome = true :=
        (lookup_isSome_iff acc _).mpr hmem
      exact ⟨strToLower c.URL, by simp [setupLdapProviders, hlk]⟩
    · have hlk : (acc.lookup (strToLower c.URL)).isSome = false := by
        rw [Bool.eq_false_iff]
        intro hs
        exact hmem ((lookup_isSome_iff acc _).mp hs)
      obtain ⟨a, ha⟩ := hnew c
      have hrearrange : (acc.map Prod.fst ++ ldapIds (c :: rest)) =
          ((acc ++ [(strToLower c.URL, a)]).map Prod.fst ++ ldapIds rest) := by
        simp [ldapIds]
      have hacc2 : ((acc ++ [(strToLower c.URL, a)]).map Prod.fst).Nodup := by
        simp only [List.map_append, List.map_cons, List.map_nil]
        exact List.Nodup.append hacc (by simp) (by simpa using hmem)
      obtain ⟨id, hid⟩ := ih (acc ++ [(strToLower c.URL, a)]) hacc2 (hrearrange ▸ h)
      refine ⟨id, ?_⟩
      simp only [setupLdapProviders, hlk, Bool.false_eq_true, if_false, ha]
      exact hid

/-! ## Registry-setup theorems -/

/-- Claim C5: when the OIDC and OAuth provider lists together contain two
entries with the same case-insensitive provider name, setup fails with
the duplicate-provider error and `NewHandler` returns that error instead
of a handler, so no authenticator registry is produced for any entry
(no partial registry is accepted). Constructor success is assumed, since
a failing external constructor would abort setup with its own fatal
error even earlier. -/
theorem duplicateOauthProvider_fails_setup (env : SetupEnv α β) (config : Config)
    (extUrl : Url)
    (hparse : env.parseUrl config.ExternalUrl = .ok extUrl)
    (hnewOidc : ∀ r c, ∃ a, env.newOidcAuthenticator r c = .ok a)
    (hnewOauth : ∀ r c, ∃ a, env.newPlainOauthAuthenticator r c = .ok a)
    (hdup : ¬ (oauthNamespaceIds config).Nodup) :
    ∃ id, setupAuthProviders env config = .error (.duplicateProvider id) ∧
      NewHandler env config = .error (.duplicateProvider id) := by
  have hdup2 : ¬ (oidcIds config.Auth.OpenIDConnect ++ oauthIds config.Auth.OAuth).Nodup := by
    simpa [oauthNamespaceIds] using hdup
  have hsetup : ∃ id, setupAuthProviders env config = .error (.duplicateProvider id) := by
    by_cases hn : (oidcIds config.Auth.OpenIDConnect).Nodup
    · obtain ⟨m1, hm1, hkeys⟩ := setupOidcProviders_nodup_ok env extUrl hnewOidc
        config.Auth.OpenIDConnect [] (by simpa using hn)
      obtain ⟨id, hid⟩ := setupOauthProviders_dup_error env extUrl hnewOauth
        config.Auth.OAuth m1 (by rw [hkeys]; simpa using hn)
        (by rw [hkeys]; simpa using hdup2)
      exact ⟨id, by simp [setupAuthProviders, hparse, hm1, hid]⟩
    · obtain ⟨id, hid⟩ := setupOidcProviders_dup_error env extUrl hnewOidc
        config.Auth.OpenIDConnect [] (by simp) (by simpa using hn)
      exact ⟨id, by simp [setupAuthProviders, hparse, hid]⟩
  obtain ⟨id, hid⟩ := hsetup
  exact ⟨id, hid, by simp [NewHandler, hid]⟩

/-- Claim C7: LDAP duplicate detection keys on the lower-cased connection
URL in a registry disjoint from the OIDC/OAuth one. Given a collision-free
OIDC/OAuth namespace: two LDAP entries with the same case-insensitive URL
make setup fail with the duplicate-provider error, while LDAP lists with
pairwise distinct lower-cased URLs always succeed — with no requirement
that they avoid identifiers used in the OIDC/OAuth namespace, so an LDAP
entry and an OIDC/OAuth entry with literally equal identifier strings do
not collide. -/
theorem ldap_duplicates_separate_namespace (env : SetupEnv α β) (config : Config)
    (extUrl : Url)
    (hparse : env.parseUrl config.ExternalUrl = .ok extUrl)
    (hnewOidc : ∀ r c, ∃ a, env.newOidcAuthenticator r c = .ok a)
    (hnewOauth : ∀ r c, ∃ a, env.newPlainOauthAuthenticator r c = .ok a)
    (hnewLdap : ∀ c, ∃ a, env.newLdapAuthenticator c = .ok a)
    (hns : (oauthNamespaceIds config).Nodup) :
    (¬ (ldapIds config.Auth.Ldap).Nodup →
      ∃ id, setupAuthProviders env config = .error (.duplicateProvider id)) ∧
    ((ldapIds config.Auth.Ldap).Nodup →
      ∃ m l, setupAuthProviders env config = .ok (m, l) ∧
        m.map Prod.fst = oauthNamespaceIds config ∧
        l.map Prod.fst = ldapIds config.Auth.Ldap) := by
  have hns2 : (oidcIds config.Auth.OpenIDConnect ++ oauthIds config.Auth.OAuth).Nodup := by
    simpa [oauthNamespaceIds] using hns
  obtain ⟨m1, hm1, hk1⟩ := setupOidcProviders_nodup_ok env extUrl hnewOidc
    config.Auth.OpenIDConnect [] (by simpa using hns2.of_append_left)
  obtain ⟨m2, hm2, hk2⟩ := setupOauthProviders_nodup_ok env extUrl hnewOauth
    config.Auth.OAuth m1 (by rw [hk1]; simpa using hns2)
  constructor
  · intro hl
    obtain ⟨id, hid⟩ := setupLdapProviders_dup_error env hnewLdap
      config.Auth.Ldap [] (by simp) (by simpa using hl)
    exact ⟨id, by simp [setupAuthProviders, hparse, hm1, hm2, hid]⟩
  · intro hl
    obtain ⟨l, hlok, hlk⟩ := setupLdapProviders_nodup_ok env hnewLdap
      config.Auth.Ldap [] (by simpa using hl)
    refine ⟨m2, l, by simp [setupAuthProviders, hparse, hm1, hm2, hlok], ?_, ?_⟩
    · rw [hk2, hk1]
      simp [oauthNamespaceIds]
    · rw [hlk]
      simp

/-! ## Concrete fixtures used by witnesses -/

/-- A setup environment whose external collaborators always succeed. -/
def envW : SetupEnv Unit Unit :=
  { parseUrl := fun s => .ok { Path := "", Rest := s },
    pathJoin := fun parts => String.join parts,
    newOidcAuthenticator := fun _ _ => .ok (),
    newPlainOauthAuthenticator := fun _ _ => .ok (),
    newLdapAuthenticator := fun _ => .ok () }

/-- A configuration whose OIDC and OAuth lists collide on the
case-insensitive name "google". -/
def cfgDup : Config :=
  { ExternalUrl := "https://wg.example.com",
    Auth := { OpenIDConnect := [{ ProviderName := "Google" }],
              OAuth := [{ ProviderName := "GOOGLE" }],
              Ldap := [] } }

/-- A configuration in which an OIDC provider name and an LDAP URL are the
same literal string. -/
def cfgShared : Config :=
  { ExternalUrl := "https://wg.example.com",
    Auth := { OpenIDConnect := [{ ProviderName := "ldap://srv" }],
              OAuth := [],
              Ldap := [{ URL := "LDAP://srv" }] } }

/-- Witness for C5: OIDC "Google" collides with OAuth "GOOGLE". -/
theorem duplicateOauthProvider_fails_setup_witness :
    envW.parseUrl cfgDup.ExternalUrl = .ok { Path := "", Rest := "https://wg.example.com" } ∧
    ¬ (oauthNamespaceIds cfgDup).Nodup ∧
    ∃ id, setupAuthProviders envW cfgDup = .error (.duplicateProvider id) ∧
      NewHandler envW cfgDup = .error (.duplicateProvider id) :=
  ⟨rfl, by decide,
   duplicateOauthProvider_fails_setup envW cfgDup { Path := "", Rest := "https://wg.example.com" }
     rfl (fun _ _ => ⟨(), rfl⟩) (fun _ _ => ⟨(), rfl⟩) (by decide)⟩

/-- Witness for C7: the LDAP URL "LDAP://srv" normalizes to the same
string as the OIDC provider name "ldap://srv", yet setup succeeds. -/
theorem ldap_duplicates_separate_namespace_witness :
    envW.parseUrl cfgShared.ExternalUrl = .ok { Path := "", Rest := "https://wg.example.com" } ∧
    (oauthNamespaceIds cfgShared).Nodup ∧
    ((¬ (ldapIds cfgShared.Auth.Ldap).Nodup →
        ∃ id, setupAuthProviders envW cfgShared = .error (.duplicateProvider id)) ∧
      ((ldapIds cfgShared.Auth.Ldap).Nodup →
        ∃ m l, setupAuthProviders envW cfgShared = .ok (m, l) ∧
          m.map Prod.fst = oauthNamespaceIds cfgShared ∧
          l.map Prod.fst = ldapIds cfgShared.Auth.Ldap)) :=
  ⟨rfl, by decide,
   ldap_duplicates_separate_namespace envW cfgShared { Path := "", Rest := "https://wg.example.com" }
     rfl (fun _ _ => ⟨(), rfl⟩) (fun _ _ => ⟨(), rfl⟩) (fun _ => ⟨(), rfl⟩) (by decide)⟩

/-- A backend oracle for which every user identifier is active. -/
def activeOracle : BackendOracle Unit := fun _ => .ok ()

/-- A backend oracle for which every user identifier is rejected. -/
def inactiveOracle : BackendOracle Unit := fun _ => .error "user not found"

/-- A logged-in administrator session. -/
def adminSession : SessionData :=
  { LoggedIn := true, UserIdentifier := "alice", IsAdmin := true,
    DeepLink := "", Error := none }

/-- A logged-in session without the administrator flag. -/
def plainSession : SessionData :=
  { LoggedIn := true, UserIdentifier := "bob", IsAdmin := false,
    DeepLink := "", Error := none }

/-! ## Middleware theorems -/

/-- Claim C2: a request to a guarded route whose session has the
logged-in flag false makes the middleware set the session's deep-link to
the requested URI, persist that session, abort with a redirect to
`/auth/login`, and never invoke the protected handler. -/
theorem notLoggedIn_redirects_to_login (getActiveUser : BackendOracle υ)
    (scope requestURI : String) (store : SessionStoreState)
    (h : (GetData store).LoggedIn = false) :
    authenticationMiddleware getActiveUser scope requestURI store =
      { store := some { GetData store with DeepLink := requestURI },
        response := some (.redirect 303 "/auth/login"), handlerCalls := 0 } := by
  simp [authenticationMiddleware, SetData, h]

/-- Witness for C2: the empty store (no session yet) on an admin route. -/
theorem notLoggedIn_redirects_to_login_witness :
    (GetData none).LoggedIn = false ∧
    authenticationMiddleware activeOracle "admin" "/admin/users" none =
      { store := some { GetData none with DeepLink := "/admin/users" },
        response := some (.redirect 303 "/auth/login"), handlerCalls := 0 } :=
  ⟨rfl, notLoggedIn_redirects_to_login activeOracle "admin" "/admin/users" none rfl⟩

/-- Claim C3: a request with required scope "admin" whose session is
logged in but not an administrator is aborted with HTTP 401 (a plain body,
not a redirect) and the protected handler is not invoked; the stored
session is untouched. -/
theorem adminScope_nonAdmin_unauthorized (getActiveUser : BackendOracle υ)
    (requestURI : String) (store : SessionStoreState)
    (hlog : (GetData store).LoggedIn = true)
    (hadm : (GetData store).IsAdmin = false) :
    authenticationMiddleware getActiveUser "admin" requestURI store =
      { store := store,
        response := some (.body 401 "unauthorized: not enough permissions"),
        handlerCalls := 0 } := by
  simp [authenticationMiddleware, hlog, hadm]

/-- Witness for C3: a logged-in non-administrator session on an admin
route. -/
theorem adminScope_nonAdmin_unauthorized_witness :
    (GetData (some plainSession)).LoggedIn = true ∧
    (GetData (some plainSession)).IsAdmin = false ∧
    authenticationMiddleware activeOracle "admin" "/admin/" (some plainSession) =
      { store := some plainSession,
        response := some (.body 401 "unauthorized: not enough permissions"),
        handlerCalls := 0 } :=
  ⟨rfl, rfl, adminScope_nonAdmin_unauthorized activeOracle "/admin/" (some plainSession) rfl rfl⟩

/-- Claim C4: every non-empty scope string (not only "admin") requires the
administrator flag: a logged-in session without it is aborted with
HTTP 401 and the protected handler is not invoked. -/
theorem nonEmptyScope_nonAdmin_unauthorized (getActiveUser : BackendOracle υ)
    (scope requestURI : String) (store : SessionStoreState)
    (hscope : scope ≠ "")
    (hlog : (GetData store).LoggedIn = true)
    (hadm : (GetData store).IsAdmin = false) :
    authenticationMiddleware getActiveUser scope requestURI store =
      { store := store,
        response := some (.body 401 "unauthorized: not enough permissions"),
        handlerCalls := 0 } := by
  by_cases hs : scope = "admin" <;>
    simp [authenticationMiddleware, hlog, hadm, hs, hscope]

/-- Witness for C4: the scope "user" (non-empty, not "admin") also
rejects a non-administrator session. -/
theorem nonEmptyScope_nonAdmin_unauthorized_witness :
    "user" ≠ "" ∧
    (GetData (some plainSession)).LoggedIn = true ∧
    (GetData (some plainSession)).IsAdmin = false ∧
    authenticationMiddleware activeOracle "user" "/admin/" (some plainSession) =
      { store := some plainSession,
        response := some (.body 401 "unauthorized: not enough permissions"),
        handlerCalls := 0 } :=
  ⟨by decide, rfl, rfl,
   nonEmptyScope_nonAdmin_unauthorized activeOracle "user" "/admin/" (some plainSession)
     (by decide) rfl rfl⟩

/-- Claim C6: a logged-in administrator session whose user identifier the
Validity Oracle reports active passes the middleware: no response is
written, the stored session is unchanged, and the protected handler runs
exactly once. -/
theorem validAdmin_reaches_handler (getActiveUser : BackendOracle υ)
    (scope requestURI : String) (store : SessionStoreState)
    (hlog : (GetData store).LoggedIn = true)
    (hadm : (GetData store).IsAdmin = true)
    (hactive : ∃ u, getActiveUser (GetData store).UserIdentifier = .ok u) :
    authenticationMiddleware getActiveUser scope requestURI store =
      { store := store, response := none, handlerCalls := 1 } := by
  obtain ⟨u, hu⟩ := hactive
  have hvalid : isUserStillValid getActiveUser (GetData store).UserIdentifier = true := by
    simp [isUserStillValid, hu]
  simp [authenticationMiddleware, hlog, hadm, hvalid]

/-- Witness for C6: an active administrator session on an admin route. -/
theorem validAdmin_reaches_handler_witness :
    (GetData (some adminSession)).LoggedIn = true ∧
    (GetData (some adminSession)).IsAdmin = true ∧
    (∃ u, activeOracle (GetData (some adminSession)).UserIdentifier = .ok u) ∧
    authenticationMiddleware activeOracle "admin" "/admin/" (some adminSession) =
      { store := some adminSession, response := none, handlerCalls := 1 } :=
  ⟨rfl, rfl, ⟨(), rfl⟩,
   validAdmin_reaches_handler activeOracle "admin" "/admin/" (some adminSession)
     rfl rfl ⟨(), rfl⟩⟩

/-- Claim C1: a logged-in session that passes the scope checks but whose
user identifier the Validity Oracle rejects (`GetActiveUser` returns any
error) is destroyed; the request is aborted with HTTP 401 and the body
"unauthorized: session no longer available", the handler is not invoked,
and a subsequent request with the same (now destroyed) session is treated
as not logged in: it is redirected to `/auth/login` without reaching a
handler. -/
theorem failedRevalidation_destroys_session (getActiveUser : BackendOracle υ)
    (scope requestURI : String) (store : SessionStoreState)
    (hlog : (GetData store).LoggedIn = true)
    (hscope : scope ≠ "" → (GetData store).IsAdmin = true)
    (herr : ∃ e, getActiveUser (GetData store).UserIdentifier = .error e) :
    authenticationMiddleware getActiveUser scope requestURI store =
      { store := none,
        response := some (.body 401 "unauthorized: session no longer available"),
        handlerCalls := 0 } ∧
    ∀ (υ2 : Type) (oracle2 : BackendOracle υ2) (scope2 uri2 : String),
      authenticationMiddleware oracle2 scope2 uri2
          (authenticationMiddleware getActiveUser scope requestURI store).store =
        { store := some { emptySession with DeepLink := uri2 },
          response := some (.redirect 303 "/auth/login"), handlerCalls := 0 } := by
  obtain ⟨e, he⟩ := herr
  have hvalid : isUserStillValid getActiveUser (GetData store).UserIdentifier = false := by
    simp [isUserStillValid, he]
  have hmain : authenticationMiddleware getActiveUser scope requestURI store =
      { store := none,
        response := some (.body 401 "unauthorized: session no longer available"),
        handlerCalls := 0 } := by
    by_cases hs : scope = ""
    · simp [authenticationMiddleware, hlog, hvalid, hs, DestroyData]
    · have hadm := hscope hs
      by_cases hsa : scope = "admin" <;>
        simp [authenticationMiddleware, hlog, hadm, hvalid, hs, hsa, DestroyData]
  refine ⟨hmain, ?_⟩
  intro υ2 oracle2 scope2 uri2
  rw [hmain]
  simp [authenticationMiddleware, GetData, emptySession, SetData]

/-- Witness for C1: an administrator session whose identifier the oracle
reports inactive, on an admin route. -/
theorem failedRevalidation_destroys_session_witness :
    (GetData (some adminSession)).LoggedIn = true ∧
    ("admin" ≠ "" → (GetData (some adminSession)).IsAdmin = true) ∧
    (∃ e, inactiveOracle (GetData (some adminSession)).UserIdentifier = .error e) ∧
    (authenticationMiddleware inactiveOracle "admin" "/admin/" (some adminSession) =
      { store := none,
        response := some (.body 401 "unauthorized: session no longer available"),
        handlerCalls := 0 } ∧
    ∀ (υ2 : Type) (oracle2 : BackendOracle υ2) (scope2 uri2 : String),
      authenticationMiddleware oracle2 scope2 uri2
          (authenticationMiddleware inactiveOracle "admin" "/admin/" (some adminSession)).store =
        { store := some { emptySession with DeepLink := uri2 },
          response := some (.redirect 303 "/auth/login"), handlerCalls := 0 }) :=
  ⟨rfl, fun _ => rfl, ⟨"user not found", rfl⟩,
   failedRevalidation_destroys_session inactiveOracle "admin" "/admin/" (some adminSession)
     rfl (fun _ => rfl) ⟨"user not found", rfl⟩⟩

/-- Claim C10 (frame): when the middleware rejects a logged-in request for
insufficient scope (either 401 "not enough permissions" branch), the
session store is left exactly as it was — nothing is written or
destroyed, and in particular the deep-link is not updated. -/
theorem insufficientScope_preserves_store (getActiveUser : BackendOracle υ)
    (scope requestURI : String) (store : SessionStoreState)
    (hscope : scope ≠ "")
    (hlog : (GetData store).LoggedIn = true)
    (hadm : (GetData store).IsAdmin = false) :
    (authenticationMiddleware getActiveUser scope requestURI store).store = store ∧
    (authenticationMiddleware getActiveUser scope requestURI store).response =
      some (.body 401 "unauthorized: not enough permissions") := by
  by_cases hs : scope = "admin" <;>
    simp [authenticationMiddleware, hlog, hadm, hs, hscope]

/-- Witness for C10: the stored session (deep-link included) survives a
scope rejection unchanged. -/
theorem insufficientScope_preserves_store_witness :
    "admin" ≠ "" ∧
    (GetData (some plainSession)).LoggedIn = true ∧
    (GetData (some plainSession)).IsAdmin = false ∧
    ((authenticationMiddleware activeOracle "admin" "/admin/" (some plainSession)).store =
        some plainSession ∧
      (authenticationMiddleware activeOracle "admin" "/admin/" (some plainSession)).response =
        some (.body 401 "unauthorized: not enough permissions")) :=
  ⟨by decide, rfl, rfl,
   insufficientScope_preserves_store activeOracle "admin" "/admin/" (some plainSession)
     (by decide) rfl rfl⟩

/-! ## Error-reporter theorems -/

/-- Claim C8: `HandleError` persists a session whose error payload holds
the given message, details and code (overwriting any prior pending
error); its path is "/" when the status is 404 and the original request
path for every other status; and the response is a redirect to `/oops`. -/
theorem handleError_spec (store : SessionStoreState) (code : Nat)
    (errMsg details requestPath : String) :
    HandleError store code errMsg details requestPath =
      (some { GetData store with
                Error := some ⟨errMsg, details, code,
                               if code == 404 then "/" else requestPath⟩ },
        .redirect 303 "/oops") := by
  by_cases h : code = 404 <;> simp [HandleError, SetData, h]

/-- Claim C9 (frame): `HandleError` changes only the session's error
payload — the logged-in flag, user identifier, administrator flag and
deep-link of the persisted session equal those of the session before the
call. -/
theorem handleError_frame (store : SessionStoreState) (code : Nat)
    (errMsg details requestPath : String) :
    (GetData (HandleError store code errMsg details requestPath).1).LoggedIn =
        (GetData store).LoggedIn ∧
    (GetData (HandleError store code errMsg details requestPath).1).UserIdentifier =
        (GetData store).UserIdentifier ∧
    (GetData (HandleError store code errMsg details requestPath).1).IsAdmin =
        (GetData store).IsAdmin ∧
    (GetData (HandleError store code errMsg details requestPath).1).DeepLink =
        (GetData store).DeepLink := by
  by_cases h : code = 404 <;> simp [HandleError, SetData, GetData, h]

end WgPortal
